import Mathlib

/-
Verification of the interactive measurement subsystem of the Asset_DashBoard
repository (src/components/MapWrapper.tsx).

The embedding covers:
  * the Unit Registry (DISTANCE_UNITS / AREA_UNITS tables, lines 157-173);
  * the Geometry Calculator: @turf/turf length (haversine sum) and area
    (spherical ring formula with RADIUS = 6371008.8), as invoked from
    finalizeMeasurement (lines 307-317) and handleMouseMove (lines 392-407);
  * the measurement session state machine of the MapControls component:
    clearInProgressMeasurement (267-287), finalizeMeasurement (289-329),
    clearAllMeasurements (331-334), startMeasure (336-339),
    toggleMeasurePanel (341-349), handleMeasureButtonClick (351-360),
    the per-event map handlers (362-458) and the points-rendering
    reconciliation effect (460-472).

Coordinates are modelled as exact rationals (Leaflet stores JS numbers; the
claims under test are about control flow and algebraic structure, not about
floating-point rounding).  Geometry values are real numbers; the toFixed
presentation step of the unit formatters is kept as the pre-rounding
magnitude together with the decimal count used by the formatter.
-/

/-- A Leaflet LatLng: latitude and longitude in degrees. -/
structure LatLng where
  lat : ℚ
  lng : ℚ
deriving DecidableEq

/-- Default coordinate used only to totalize list-indexing helpers. -/
def dfl : LatLng := ⟨0, 0⟩

instance : Inhabited LatLng := ⟨dfl⟩

/-- Leaflet L.LatLng.equals with its default margin 1.0E-9:
max(|Δlat|, |Δlng|) ≤ 1e-9. -/
def latLngEquals (p q : LatLng) : Bool :=
  max |p.lat - q.lat| |p.lng - q.lng| ≤ 1 / 1000000000

/-- Earth radius used by @turf/turf (helpers.earthRadius), in meters. -/
noncomputable def RADIUS : ℝ := 6371008.8

/-- turf degreesToRadians. -/
noncomputable def rad (x : ℝ) : ℝ := x * Real.pi / 180

/-- JavaScript Math.atan2 (signed-zero distinctions ignored). -/
noncomputable def atan2 (y x : ℝ) : ℝ :=
  if 0 < x then Real.arctan (y / x)
  else if x < 0 then
    (if 0 ≤ y then Real.arctan (y / x) + Real.pi else Real.arctan (y / x) - Real.pi)
  else if 0 < y then Real.pi / 2
  else if y < 0 then -(Real.pi / 2)
  else 0

/-- The haversine intermediate value `a` of turf distance. -/
noncomputable def havA (p q : LatLng) : ℝ :=
  Real.sin (rad ((q.lat : ℝ) - (p.lat : ℝ)) / 2) ^ 2
    + Real.sin (rad ((q.lng : ℝ) - (p.lng : ℝ)) / 2) ^ 2
      * Real.cos (rad ((p.lat : ℝ))) * Real.cos (rad ((q.lat : ℝ)))

/-- turf distance between two coordinates, in meters:
2 * atan2(√a, √(1-a)) * earthRadius. -/
noncomputable def haversineMeters (p q : LatLng) : ℝ :=
  2 * atan2 (Real.sqrt (havA p q)) (Real.sqrt (1 - havA p q)) * RADIUS

/-- turf length of a LineString through the given points, in meters:
the sum of the haversine distances of consecutive segments. -/
noncomputable def turfLength : List LatLng → ℝ
  | a :: b :: t => haversineMeters a b + turfLength (b :: t)
  | _ => 0

/-- Longitude of a point in radians (turf ringArea reads coordinate [0]). -/
noncomputable def lngRad (p : LatLng) : ℝ := rad ((p.lng : ℝ))

/-- Sine of the latitude in radians (turf ringArea reads coordinate [1]). -/
noncomputable def sinLat (p : LatLng) : ℝ := Real.sin (rad ((p.lat : ℝ)))

/-- The window sum of turf ringArea for the non-wrapping loop iterations:
for each window p1,p2,p3 of three consecutive ring coordinates it adds
(rad(p3.lng) - rad(p1.lng)) * sin(rad(p2.lat)). -/
noncomputable def win3 : List LatLng → ℝ
  | a :: b :: c :: t => (lngRad c - lngRad a) * sinLat b + win3 (b :: c :: t)
  | _ => 0

/-- turf ringArea of a coordinate ring: 0 when the ring has at most two
coordinates, otherwise the cyclic window sum (the two wrap-around loop
iterations added to the linear window sum) scaled by RADIUS²/2. -/
noncomputable def ringArea (c : List LatLng) : ℝ :=
  if 2 < c.length then
    (win3 c
      + (lngRad (c.headD dfl) - lngRad (c.dropLast.getLastD dfl)) * sinLat (c.getLastD dfl)
      + (lngRad (c.getD 1 dfl) - lngRad (c.getLastD dfl)) * sinLat (c.headD dfl))
      * RADIUS * RADIUS / 2
  else 0

/-- Geodesic polygon area of an open point list, in square meters, as computed
by the source: the ring is implicitly closed by appending the first point
(MapWrapper.tsx line 314) and |ringArea| is taken (turf polygonArea of a
single-ring polygon).  The empty list is mapped to 0; the source only ever
evaluates the area of a nonempty list (the call sites guard on at least
three points). -/
noncomputable def areaOfPoints : List LatLng → ℝ
  | [] => 0
  | p :: t => |ringArea ((p :: t) ++ [p])|

/-- Shoelace-style edge term used to relate ringArea to a cyclic sum. -/
noncomputable def cross (u v : LatLng) : ℝ :=
  lngRad v * sinLat u - lngRad u * sinLat v

/-- Linear sum of cross terms over consecutive pairs of a list. -/
noncomputable def linCross : List LatLng → ℝ
  | a :: b :: t => cross a b + linCross (b :: t)
  | _ => 0

/-- One of the two measurement modes of the tool. -/
inductive Mode
  | distance
  | area
deriving DecidableEq

/-- Minimum captured-point count for a mode (handleMeasureButtonClick line 353
and the finalizeMeasurement guards, lines 301-302). -/
def minPoints : Mode → ℕ
  | .distance => 2
  | .area => 3

/-- The distance display units (type DistanceUnit, line 157). -/
inductive DistanceUnit
  | m
  | km
  | ft
  | mi
deriving DecidableEq

/-- The area display units (type AreaUnit, line 158). -/
inductive AreaUnit
  | sqm
  | sqkm
  | ha
  | sqft
  | acres
deriving DecidableEq

/-- An entry of a unit table: display label, conversion factor from base
units, and the decimal count handed to toFixed by the formatter. -/
structure UnitConfig where
  label : String
  conversion : ℚ
  decimals : ℕ
deriving DecidableEq

/-- The DISTANCE_UNITS registry (lines 160-165). -/
def DISTANCE_UNITS : DistanceUnit → UnitConfig
  | .m => ⟨"Meters", 1, 0⟩
  | .km => ⟨"Kilometers", 1 / 1000, 2⟩
  | .ft => ⟨"Feet", 328084 / 100000, 0⟩
  | .mi => ⟨"Miles", 621371 / 1000000000, 2⟩

/-- The AREA_UNITS registry (lines 167-173). -/
def AREA_UNITS : AreaUnit → UnitConfig
  | .sqm => ⟨"Square Meters", 1, 0⟩
  | .sqkm => ⟨"Square Kilometers", 1 / 1000000, 3⟩
  | .ha => ⟨"Hectares", 1 / 10000, 3⟩
  | .sqft => ⟨"Square Feet", 107639 / 10000, 0⟩
  | .acres => ⟨"Acres", 247105 / 1000000000, 3⟩

/-- Unit symbol of a distance unit (the Record keys of DISTANCE_UNITS). -/
def distanceUnitSymbol : DistanceUnit → String
  | .m => "m"
  | .km => "km"
  | .ft => "ft"
  | .mi => "mi"

/-- Unit symbol of an area unit (the Record keys of AREA_UNITS). -/
def areaUnitSymbol : AreaUnit → String
  | .sqm => "m²"
  | .sqkm => "km²"
  | .ha => "ha"
  | .sqft => "ft²"
  | .acres => "acres"

/-- Order in which Object.entries lists the DISTANCE_UNITS keys; this is the
order of the buttons of the unit-selector dropdown (lines 532-544). -/
def distanceUnitList : List DistanceUnit := [.m, .km, .ft, .mi]

/-- Order in which Object.entries lists the AREA_UNITS keys. -/
def areaUnitList : List AreaUnit := [.sqm, .sqkm, .ha, .sqft, .acres]

/-- A rendered measurement label: the converted magnitude (the value passed
to toFixed), the toFixed decimal count, and the unit symbol appended by the
formatter. -/
structure Label where
  value : ℝ
  decimals : ℕ
  unitSym : String

/-- formatDistance (lines 236-240): converts meters with the selected unit's
factor and renders with that unit's formatter. -/
noncomputable def formatDistance (u : DistanceUnit) (meters : ℝ) : Label :=
  ⟨meters * (((DISTANCE_UNITS u).conversion : ℝ)), (DISTANCE_UNITS u).decimals,
    distanceUnitSymbol u⟩

/-- formatArea (lines 242-246): converts square meters with the selected
unit's factor and renders with that unit's formatter. -/
noncomputable def formatArea (u : AreaUnit) (sqMeters : ℝ) : Label :=
  ⟨sqMeters * (((AREA_UNITS u).conversion : ℝ)), (AREA_UNITS u).decimals,
    areaUnitSymbol u⟩

/-- Content of the floating measure tooltip. -/
inductive TooltipContent
  | instructions (m : Mode)
  | preview (lbl : Label)
  | addMorePoints

/-- A layer held by the measureLayersRef FeatureGroup or by tempLayerRef. -/
inductive Artifact
  | marker (p : LatLng)
  | progressLine (ps : List LatLng)
  | progressPolygon (ps : List LatLng)
  | finalShape (mode : Mode) (ps : List LatLng) (raw : ℝ) (lbl : Label)

/-- True exactly on the persistent finalized shapes (the polyline/polygon
with permanent tooltip added by finalizeMeasurement, lines 308/313/322). -/
def isFinalShape : Artifact → Bool
  | .finalShape _ _ _ _ => true
  | _ => false

/-- The measurement-relevant state of the MapWrapper/MapControls component
pair: the measure panel flag, the active mode, the captured points
(pointsRef/points), the contents of the measureLayersRef FeatureGroup, the
dashed preview layer (tempLayerRef), the floating tooltip (tooltipRef), the
unit-selector dropdown flag and the two selected units. -/
structure MState where
  panelOpen : Bool
  measureMode : Option Mode
  pointsRef : List LatLng
  measureLayers : List Artifact
  tempLayer : Option (List LatLng)
  tooltip : Option TooltipContent
  unitSelectorOpen : Bool
  distanceUnit : DistanceUnit
  areaUnit : AreaUnit

/-- Initial component state (useState initializers, lines 226-234 and
762-764). -/
def initState : MState :=
  { panelOpen := false, measureMode := none, pointsRef := [], measureLayers := [],
    tempLayer := none, tooltip := none, unitSelectorOpen := false,
    distanceUnit := .m, areaUnit := .sqm }

/-- clearInProgressMeasurement (lines 267-287): empties the captured points,
removes the dashed preview layer, and resets the tooltip to the instruction
text while a mode is active (or removes it when no mode is active).  It does
not touch the measureLayersRef group. -/
def clearInProgressMeasurement (s : MState) : MState :=
  { s with pointsRef := [], tempLayer := none,
           tooltip :=
             match s.tooltip, s.measureMode with
             | none, _ => none
             | some _, some m => some (.instructions m)
             | some _, none => none }

/-- The duplicate-point adjustment at the top of finalizeMeasurement
(lines 292-299): when more than one point was captured and the last two are
coordinate-equal (Leaflet equals, 1e-9 margin), the trailing duplicate is
popped. -/
def dedupeLastPair (ps : List LatLng) : List LatLng :=
  if 1 < ps.length then
    if latLngEquals (ps.getLastD dfl) (ps.dropLast.getLastD dfl) then ps.dropLast else ps
  else ps

/-- Raw measurement value of the effective point list, in base units
(turfLength on the LineString, lines 309-310, or turfArea on the implicitly
closed ring, lines 314-316). -/
noncomputable def calcRaw : Mode → List LatLng → ℝ
  | .distance, pts => turfLength pts
  | .area, pts => areaOfPoints pts

/-- Label text of a new finalized measurement, formatted with the currently
selected unit of the active mode (lines 311 and 317). -/
noncomputable def formatValue (s : MState) : Mode → ℝ → Label
  | .distance, v => formatDistance s.distanceUnit v
  | .area, v => formatArea s.areaUnit v

/-- finalizeMeasurement (lines 289-329): requires an active mode; dedupes the
trailing duplicate point; returns unchanged when the effective count is
below the mode minimum; otherwise adds the solid shape with its permanent
label to the measureLayersRef group and runs clearInProgressMeasurement. -/
noncomputable def finalizeMeasurement (s : MState) : MState :=
  match s.measureMode with
  | none => s
  | some mode =>
      let pointsToUse := dedupeLastPair s.pointsRef
      if mode = .distance ∧ pointsToUse.length < 2 then s
      else if mode = .area ∧ pointsToUse.length < 3 then s
      else
        clearInProgressMeasurement
          { s with measureLayers :=
              s.measureLayers
                ++ [.finalShape mode pointsToUse (calcRaw mode pointsToUse)
                      (formatValue s mode (calcRaw mode pointsToUse))] }

/-- clearAllMeasurements (lines 331-334): clears the measureLayersRef group
and the in-progress capture. -/
def clearAllMeasurements (s : MState) : MState :=
  clearInProgressMeasurement { s with measureLayers := [] }

/-- startMeasure (lines 336-339): clearAllMeasurements followed by
setMeasureMode(mode). -/
def startMeasure (m : Mode) (s : MState) : MState :=
  { clearAllMeasurements s with measureMode := some m }

/-- handleMeasureButtonClick (lines 351-360): the same-mode button attempts a
finalize when the raw captured count meets the mode minimum and otherwise
does nothing; a different-mode button calls startMeasure. -/
noncomputable def handleMeasureButtonClick (m : Mode) (s : MState) : MState :=
  if s.measureMode = some m then
    (if minPoints m ≤ s.pointsRef.length then finalizeMeasurement s else s)
  else startMeasure m s

/-- toggleMeasurePanel (lines 341-349): closing the panel clears everything
and deactivates the mode; opening only flips the flag. -/
def toggleMeasurePanel (s : MState) : MState :=
  if s.panelOpen then
    { clearAllMeasurements s with panelOpen := false, measureMode := none }
  else { s with panelOpen := true }

/-- handleMouseMove (lines 369-414) while mode m is active: creates the
tooltip with the instruction text when absent; with at least one captured
point it replaces the dashed preview layer and shows the live value (the
distance of the captured points plus the cursor, or the ring area once the
preview polygon has more than two points). -/
noncomputable def mouseMove (m : Mode) (cursor : LatLng) (s : MState) : MState :=
  let s1 : MState :=
    match s.tooltip with
    | some _ => s
    | none => { s with tooltip := some (.instructions m) }
  if s.pointsRef = [] then s1
  else
    match m with
    | .distance =>
        { s1 with
          tempLayer := some [s.pointsRef.getLastD dfl, cursor],
          tooltip := some (.preview
            (formatDistance s.distanceUnit (turfLength (s.pointsRef ++ [cursor])))) }
    | .area =>
        { s1 with
          tempLayer := some (s.pointsRef ++ [cursor]),
          tooltip :=
            if 2 < (s.pointsRef ++ [cursor]).length then
              some (.preview (formatArea s.areaUnit (areaOfPoints (s.pointsRef ++ [cursor]))))
            else some .addMorePoints }

/-- The points-rendering reconciliation effect (lines 460-472): it first
clears the whole measureLayersRef group, then redraws one circle marker per
captured point and the in-progress polyline/polygon.  It runs whenever the
points state or the mode changes. -/
def renderEffect (s : MState) : MState :=
  { s with measureLayers :=
      if s.pointsRef = [] then []
      else
        (s.pointsRef.map .marker)
          ++ (if s.measureMode = some .distance ∧ 1 < s.pointsRef.length then
                [.progressLine s.pointsRef]
              else if s.measureMode = some .area ∧ 1 < s.pointsRef.length then
                [.progressPolygon s.pointsRef]
              else []) }

/-- True when finalizeMeasurement would pass its minimum-count guards and
therefore reach clearInProgressMeasurement (whose setPoints triggers the
points-rendering effect). -/
def finalizeFires (m : Mode) (s : MState) : Bool :=
  let pts := dedupeLastPair s.pointsRef
  !((m == .distance && decide (pts.length < 2)) || (m == .area && decide (pts.length < 3)))

/-- Effect cascade of a mode switch: the startMeasure handler runs, the old
measure-event subscription is cleaned up (removing the floating tooltip and
re-running clearInProgressMeasurement, lines 443-456), and the
points/mode-rendering effect reconciles the overlay. -/
def modeSwitchCascade (m : Mode) (s : MState) : MState :=
  renderEffect { startMeasure m s with tooltip := none }

/-- Effect cascade of closing the measure panel: the toggleMeasurePanel
handler runs (clear-all plus deactivation), the measure-event subscription
cleanup removes the tooltip, and the rendering effect reconciles. -/
def panelCloseCascade (s : MState) : MState :=
  renderEffect { toggleMeasurePanel s with tooltip := none }

/-- The user-interface events that reach the measurement subsystem. -/
inductive UIEvent
  | click (p : LatLng)
  | dblclick
  | rightclick
  | escape
  | mousemove (p : LatLng)
  | measureButton (m : Mode)
  | clearAllButton
  | togglePanel
  | unitSelectorToggle
  | clickOutsideSelector
  | selectDistanceUnit (i : ℕ)
  | selectAreaUnit (i : ℕ)

/-- Effect cascade of an actual unit change while a mode is active: the two
format callbacks change identity, so the measure-event subscription is torn
down (tooltip removed, clearInProgressMeasurement re-run) and re-created,
and the rendering effect reconciles the overlay. -/
def unitChangeCascade (s : MState) : MState :=
  renderEffect (clearInProgressMeasurement { s with tooltip := none })

/-- One full event step of the component: the Leaflet/DOM handler that the
source registers for the event (lines 437-441 and the onClick props),
composed with the React effects that its state updates trigger.  Handlers
for map events exist only while a mode is active (the subscription effect
early-returns otherwise, line 363); the measure buttons exist only while
the panel is open; the unit selector exists only while the panel is open, a
mode is active and the dropdown is open. -/
noncomputable def stepUI (e : UIEvent) (s : MState) : MState :=
  match e with
  | .click p =>
      match s.measureMode with
      | none => s
      | some _ => renderEffect { s with pointsRef := s.pointsRef ++ [p] }
  | .dblclick =>
      match s.measureMode with
      | none => s
      | some m =>
          if finalizeFires m s then renderEffect (finalizeMeasurement s)
          else finalizeMeasurement s
  | .rightclick =>
      match s.measureMode with
      | none => s
      | some _ => renderEffect (clearInProgressMeasurement s)
  | .escape =>
      match s.measureMode with
      | none => s
      | some _ => renderEffect (clearInProgressMeasurement s)
  | .mousemove p =>
      match s.measureMode with
      | none => s
      | some m => mouseMove m p s
  | .measureButton m =>
      if s.panelOpen then
        (if s.measureMode = some m then
          (if minPoints m ≤ s.pointsRef.length then
            (if finalizeFires m s then renderEffect (finalizeMeasurement s)
             else finalizeMeasurement s)
           else s)
         else modeSwitchCascade m s)
      else s
  | .clearAllButton =>
      if s.panelOpen then renderEffect (clearAllMeasurements s) else s
  | .togglePanel =>
      if s.panelOpen then panelCloseCascade s else { s with panelOpen := true }
  | .unitSelectorToggle =>
      if s.panelOpen ∧ s.measureMode ≠ none then
        { s with unitSelectorOpen := !s.unitSelectorOpen }
      else s
  | .clickOutsideSelector => { s with unitSelectorOpen := false }
  | .selectDistanceUnit i =>
      if s.panelOpen ∧ s.measureMode = some .distance ∧ s.unitSelectorOpen then
        match distanceUnitList.get? i with
        | none => s
        | some u =>
            if u = s.distanceUnit then { s with unitSelectorOpen := false }
            else unitChangeCascade { s with distanceUnit := u, unitSelectorOpen := false }
      else s
  | .selectAreaUnit i =>
      if s.panelOpen ∧ s.measureMode = some .area ∧ s.unitSelectorOpen then
        match areaUnitList.get? i with
        | none => s
        | some u =>
            if u = s.areaUnit then { s with unitSelectorOpen := false }
            else unitChangeCascade { s with areaUnit := u, unitSelectorOpen := false }
      else s

/-- Runs a list of events from a state, oldest event first. -/
noncomputable def runUI : List UIEvent → MState → MState
  | [], s => s
  | e :: es, s => runUI es (stepUI e s)

/-- States reachable from the initial component state through event steps. -/
inductive Reachable : MState → Prop
  | init : Reachable initState
  | step (e : UIEvent) {s : MState} : Reachable s → Reachable (stepUI e s)

/-- Runtime (JavaScript) view of the DISTANCE_UNITS Record: an association
list from the unit symbol (the Record key) to its configuration, in
Object.entries order. -/
def DISTANCE_UNITS_TABLE : List (String × UnitConfig) :=
  distanceUnitList.map (fun u => (distanceUnitSymbol u, DISTANCE_UNITS u))

/-- Runtime view of the AREA_UNITS Record. -/
def AREA_UNITS_TABLE : List (String × UnitConfig) :=
  areaUnitList.map (fun u => (areaUnitSymbol u, AREA_UNITS u))

/-- Runtime table lookup: DISTANCE_UNITS[sym] / AREA_UNITS[sym], which is
undefined (none) for a symbol that is not a key of the Record. -/
def lookupUnitCfg (table : List (String × UnitConfig)) (sym : String) : Option UnitConfig :=
  (table.find? (fun e => e.1 == sym)).map (fun e => e.2)

/-- Runtime view of the React state setters setDistanceUnit / setAreaUnit
(useState, lines 763-764): the setter stores whatever symbol it receives;
there is no validation step anywhere on this path. -/
def setUnitRaw (sym _current : String) : String := sym

/-- The setDistanceUnit prop call made by the unit-selector onClick
(line 536), at the component-state level. -/
def setDistanceUnitH (u : DistanceUnit) (s : MState) : MState :=
  { s with distanceUnit := u }

/-- The setAreaUnit prop call made by the unit-selector onClick (line 537),
at the component-state level. -/
def setAreaUnitH (u : AreaUnit) (s : MState) : MState :=
  { s with areaUnit := u }

/-- All finalized overlay shapes of a state carry a label equal to their
stored raw value formatted in the currently selected display unit. -/
def finalLabelConsistent (s : MState) : Prop :=
  ∀ (m : Mode) (ps : List LatLng) (raw : ℝ) (lbl : Label),
    Artifact.finalShape m ps raw lbl ∈ s.measureLayers → lbl = formatValue s m raw

/-- Concrete state used to exercise finalizeMeasurement: Distance mode with
a single captured point. -/
def c1State : MState :=
  { initState with panelOpen := true, measureMode := some .distance,
                   pointsRef := [⟨0, 0⟩] }

/-- Concrete state with one already-finalized distance measurement while
Distance mode is active. -/
def c2State : MState :=
  { initState with panelOpen := true, measureMode := some .distance,
                   measureLayers := [.finalShape .distance [⟨0, 0⟩, ⟨0, 1⟩] 5 ⟨5, 0, "m"⟩] }

/-- Concrete state with one finalized area measurement of raw value 100 m²,
labelled in the currently selected unit m². -/
def c3State : MState :=
  { initState with panelOpen := true, measureMode := some .area,
                   measureLayers := [.finalShape .area [⟨0, 0⟩, ⟨0, 1⟩, ⟨1, 1⟩] 100 ⟨100, 0, "m²"⟩] }

/-- Concrete state used for the same-mode toggle button: Distance mode with
two coordinate-equal captured points (the raw count meets the minimum but
the deduped count does not). -/
def c10State : MState :=
  { initState with panelOpen := true, measureMode := some .distance,
                   pointsRef := [⟨0, 0⟩, ⟨0, 0⟩] }

/-- Concrete state in Area mode with three captured points forming a
triangle, ready to finalize. -/
def c3FinState : MState :=
  { initState with panelOpen := true, measureMode := some .area,
                   pointsRef := [⟨0, 0⟩, ⟨0, 1⟩, ⟨1, 1⟩] }

/-- The component state reached after opening the measure panel, activating
Distance mode and clicking (0,0) and (0,1): two captured points, and the
overlay group holding their markers and the in-progress polyline. -/
def c4Mid : MState :=
  { panelOpen := true, measureMode := some .distance,
    pointsRef := [⟨0, 0⟩, ⟨0, 1⟩],
    measureLayers := [.marker ⟨0, 0⟩, .marker ⟨0, 1⟩, .progressLine [⟨0, 0⟩, ⟨0, 1⟩]],
    tempLayer := none, tooltip := none, unitSelectorOpen := false,
    distanceUnit := .m, areaUnit := .sqm }

/-- Event trace that opens the measure panel, activates Distance mode and
captures two distinct points; a double-click then finalizes the shape. -/
def c4Trace : List UIEvent :=
  [.togglePanel, .measureButton .distance, .click ⟨0, 0⟩, .click ⟨0, 1⟩]

/-- The haversine intermediate value is symmetric in its two endpoints. -/
theorem havA_symm (p q : LatLng) : havA p q = havA q p := by
  have key : ∀ x y : ℝ, Real.sin (rad (x - y) / 2) ^ 2 = Real.sin (rad (y - x) / 2) ^ 2 := by
    intro x y
    have h : rad (x - y) / 2 = -(rad (y - x) / 2) := by unfold rad; ring
    rw [h, Real.sin_neg]; ring
  unfold havA
  rw [key ((q.lat : ℝ)) ((p.lat : ℝ)), key ((q.lng : ℝ)) ((p.lng : ℝ))]
  ring

/-- The turf haversine distance is symmetric. -/
theorem haversineMeters_symm (p q : LatLng) : haversineMeters p q = haversineMeters q p := by
  unfold haversineMeters
  rw [havA_symm]

/-- Appending one point to a nonempty polyline adds the final segment. -/
theorem turfLength_append_single (l : List LatLng) (a x : LatLng) :
    turfLength ((a :: l) ++ [x]) = turfLength (a :: l) + haversineMeters ((a :: l).getLastD dfl) x := by
  induction l generalizing a with
  | nil => simp [turfLength]
  | cons b t ih =>
      have h1 : ((a :: b :: t) ++ [x]) = a :: ((b :: t) ++ [x]) := by simp
      rw [h1]
      show haversineMeters a b + turfLength ((b :: t) ++ [x]) = _
      rw [ih b]
      have h2 : (a :: b :: t).getLastD dfl = (b :: t).getLastD dfl := by
        simp [List.getLastD_cons]
      rw [h2]
      show haversineMeters a b + (turfLength (b :: t) + _) = haversineMeters a b + turfLength (b :: t) + _
      ring

/-- turf length is invariant under reversing the traced point sequence. -/
theorem turfLength_reverse (l : List LatLng) : turfLength l.reverse = turfLength l := by
  induction l with
  | nil => simp
  | cons a l ih =>
      cases l with
      | nil => simp
      | cons b t =>
          obtain ⟨y, ys, hy⟩ : ∃ y ys, (b :: t).reverse = y :: ys := by
            cases h : (b :: t).reverse with
            | nil => exact absurd (List.reverse_eq_nil_iff.mp h) (by simp)
            | cons y ys => exact ⟨y, ys, rfl⟩
          have hrev : (a :: b :: t).reverse = (y :: ys) ++ [a] := by
            rw [List.reverse_cons, hy]
          have hlast : (y :: ys).getLastD dfl = b := by
            have : (b :: t).reverse.getLastD dfl = b := by
              rw [List.reverse_cons, List.getLastD_concat]
            rwa [hy] at this
          rw [hrev, turfLength_append_single, hlast, ← hy, ih, haversineMeters_symm]
          rw [show turfLength (a :: b :: t) = haversineMeters a b + turfLength (b :: t) from rfl]
          ring

/-- The shoelace edge term is antisymmetric. -/
theorem cross_antisymm (u v : LatLng) : cross u v = -cross v u := by
  unfold cross; ring

/-- Appending one point to a nonempty chain adds one edge term. -/
theorem linCross_append_single (l : List LatLng) (a x : LatLng) :
    linCross ((a :: l) ++ [x]) = linCross (a :: l) + cross ((a :: l).getLastD dfl) x := by
  induction l generalizing a with
  | nil => simp [linCross]
  | cons b t ih =>
      have h1 : ((a :: b :: t) ++ [x]) = a :: ((b :: t) ++ [x]) := by simp
      rw [h1]
      show cross a b + linCross ((b :: t) ++ [x]) = _
      rw [ih b]
      have h2 : (a :: b :: t).getLastD dfl = (b :: t).getLastD dfl := by
        simp [List.getLastD_cons]
      rw [h2]
      show cross a b + (linCross (b :: t) + _) = cross a b + linCross (b :: t) + _
      ring

/-- Reversing a chain negates the sum of its edge terms. -/
theorem linCross_reverse (l : List LatLng) : linCross l.reverse = -linCross l := by
  induction l with
  | nil => simp [linCross]
  | cons a l ih =>
      cases l with
      | nil => simp [linCross]
      | cons b t =>
          obtain ⟨y, ys, hy⟩ : ∃ y ys, (b :: t).reverse = y :: ys := by
            cases h : (b :: t).reverse with
            | nil => exact absurd (List.reverse_eq_nil_iff.mp h) (by simp)
            | cons y ys => exact ⟨y, ys, rfl⟩
          have hrev : (a :: b :: t).reverse = (y :: ys) ++ [a] := by
            rw [List.reverse_cons, hy]
          have hlast : (y :: ys).getLastD dfl = b := by
            have : (b :: t).reverse.getLastD dfl = b := by
              rw [List.reverse_cons, List.getLastD_concat]
            rwa [hy] at this
          rw [hrev, linCross_append_single, hlast, ← hy, ih]
          rw [show linCross (a :: b :: t) = cross a b + linCross (b :: t) from rfl,
            cross_antisymm b a]
          ring

/-- The window sum of ringArea, written as the chain sum plus boundary
corrections. -/
theorem win3_eq (l : List LatLng) : ∀ a b : LatLng,
    win3 (a :: b :: l)
      = linCross (a :: b :: l) - lngRad b * sinLat a
        + lngRad ((a :: b :: l).dropLast.getLastD dfl) * sinLat ((a :: b :: l).getLastD dfl) := by
  induction l with
  | nil =>
      intro a b
      rw [show win3 [a, b] = 0 from rfl, show linCross [a, b] = cross a b + 0 from rfl,
        show ([a, b] : List LatLng).dropLast = [a] from rfl,
        show ([a] : List LatLng).getLastD dfl = a from rfl,
        show ([a, b] : List LatLng).getLastD dfl = b by simp [List.getLastD_cons]]
      unfold cross; ring
  | cons c l' ih =>
      intro a b
      have e1 : (a :: b :: c :: l').getLastD dfl = (b :: c :: l').getLastD dfl := by
        simp [List.getLastD_cons]
      have e2 : (a :: b :: c :: l').dropLast.getLastD dfl
          = (b :: c :: l').dropLast.getLastD dfl := by
        rw [show (a :: b :: c :: l').dropLast = a :: (b :: c :: l').dropLast from rfl,
          show (b :: c :: l').dropLast = b :: (c :: l').dropLast from rfl]
        simp [List.getLastD_cons]
      rw [show win3 (a :: b :: c :: l')
            = (lngRad c - lngRad a) * sinLat b + win3 (b :: c :: l') from rfl,
        ih b c,
        show linCross (a :: b :: c :: l') = cross a b + linCross (b :: c :: l') from rfl,
        e1, e2]
      unfold cross; ring

/-- On a ring closed by repeating its first coordinate, turf ringArea is the
chain sum of the closed list scaled by RADIUS²/2 (the boundary corrections
cancel against the two wrap-around iterations). -/
theorem ringArea_closed (p : LatLng) (t : List LatLng) :
    ringArea ((p :: t) ++ [p]) = linCross ((p :: t) ++ [p]) * RADIUS * RADIUS / 2 := by
  cases t with
  | nil =>
      rw [show ((p :: ([] : List LatLng)) ++ [p]) = [p, p] from rfl]
      rw [show ringArea [p, p] = 0 from by simp [ringArea],
        show linCross [p, p] = cross p p + 0 from rfl]
      unfold cross; ring
  | cons q t' =>
      have hlen : 2 < ((p :: q :: t') ++ [p]).length := by
        simp [List.length_append]
      rw [ringArea, if_pos hlen]
      have hdrop : ((p :: q :: t') ++ [p]).dropLast = p :: q :: t' :=
        List.dropLast_concat ..
      have hlast : ((p :: q :: t') ++ [p]).getLastD dfl = p :=
        List.getLastD_concat ..
      have hhead : ((p :: q :: t') ++ [p]).headD dfl = p := rfl
      have hsnd : ((p :: q :: t') ++ [p]).getD 1 dfl = q := rfl
      have hwin : (p :: q :: t') ++ [p] = p :: q :: (t' ++ [p]) := by simp
      rw [hdrop, hlast, hhead, hsnd]
      rw [hwin, win3_eq (t' ++ [p]) p q]
      rw [show (p :: q :: (t' ++ [p])).getLastD dfl = p by
        rw [← hwin, hlast]]
      rw [show (p :: q :: (t' ++ [p])).dropLast.getLastD dfl = (p :: q :: t').getLastD dfl by
        rw [← hwin, hdrop]]
      ring

/-- areaOfPoints of a nonempty list, through the closed-ring chain sum. -/
theorem areaOfPoints_closed (p : LatLng) (t : List LatLng) :
    areaOfPoints (p :: t) = |linCross ((p :: t) ++ [p]) * RADIUS * RADIUS / 2| := by
  rw [show areaOfPoints (p :: t) = |ringArea ((p :: t) ++ [p])| from rfl, ringArea_closed]

/-- Rotating the closing point once around the ring keeps the chain sum. -/
theorem linCross_rot1 (p q : LatLng) (t : List LatLng) :
    linCross ((p :: q :: t) ++ [p]) = linCross ((q :: (t ++ [p])) ++ [q]) := by
  have h1 : (p :: q :: t) ++ [p] = p :: ((q :: t) ++ [p]) := by simp
  have h2 : linCross (p :: ((q :: t) ++ [p]))
      = cross p q + linCross ((q :: t) ++ [p]) := by
    rw [show (q :: t) ++ [p] = q :: (t ++ [p]) from by simp]
    rfl
  have h3 : linCross ((q :: (t ++ [p])) ++ [q])
      = linCross (q :: (t ++ [p])) + cross ((q :: (t ++ [p])).getLastD dfl) q :=
    linCross_append_single (t ++ [p]) q q
  have h4 : (q :: (t ++ [p])).getLastD dfl = p := by
    rw [show q :: (t ++ [p]) = (q :: t) ++ [p] from by simp, List.getLastD_concat]
  rw [h1, h2, h3, h4, show q :: (t ++ [p]) = (q :: t) ++ [p] from by simp,
    cross_antisymm p q]
  ring

/-- areaOfPoints is invariant under one cyclic rotation of the point list. -/
theorem areaOfPoints_rotate_one (l : List LatLng) :
    areaOfPoints (l.rotate 1) = areaOfPoints l := by
  cases l with
  | nil => simp
  | cons p t =>
      cases t with
      | nil => simp [List.rotate_singleton]
      | cons q t' =>
          have hrot : (p :: q :: t').rotate 1 = (q :: t') ++ [p] := by
            rw [show (1 : ℕ) = 0 + 1 from rfl, List.rotate_cons_succ, List.rotate_zero]
          rw [hrot, show (q :: t') ++ [p] = q :: (t' ++ [p]) from by simp,
            areaOfPoints_closed q (t' ++ [p]), areaOfPoints_closed p (q :: t'),
            linCross_rot1 p q t']

/-- areaOfPoints is invariant under arbitrary cyclic rotation. -/
theorem areaOfPoints_rotate (l : List LatLng) (n : ℕ) :
    areaOfPoints (l.rotate n) = areaOfPoints l := by
  induction n generalizing l with
  | zero => simp
  | succ n ih =>
      rw [show n + 1 = 1 + n from by omega, ← List.rotate_rotate, ih,
        areaOfPoints_rotate_one]

/-- areaOfPoints is invariant under reversing the winding order. -/
theorem areaOfPoints_reverse (l : List LatLng) :
    areaOfPoints l.reverse = areaOfPoints l := by
  cases l with
  | nil => simp
  | cons p t =>
      cases t with
      | nil => simp
      | cons q t' =>
          obtain ⟨y, ys, hy⟩ : ∃ y ys, (q :: t').reverse = y :: ys := by
            cases h : (q :: t').reverse with
            | nil => exact absurd (List.reverse_eq_nil_iff.mp h) (by simp)
            | cons y ys => exact ⟨y, ys, rfl⟩
          have hrev : (p :: q :: t').reverse = (y :: ys) ++ [p] := by
            rw [List.reverse_cons, hy]
          have hB : linCross (((y :: (ys ++ [p]))) ++ [y])
              = linCross (y :: (ys ++ [p])) + cross ((y :: (ys ++ [p])).getLastD dfl) y :=
            linCross_append_single (ys ++ [p]) y y
          have hBlast : (y :: (ys ++ [p])).getLastD dfl = p := by
            rw [show y :: (ys ++ [p]) = (y :: ys) ++ [p] from by simp, List.getLastD_concat]
          have hA : linCross (p :: ((y :: ys) ++ [p]))
              = cross p y + linCross ((y :: ys) ++ [p]) := by
            rw [show (y :: ys) ++ [p] = y :: (ys ++ [p]) from by simp]
            rfl
          have hArev : p :: ((y :: ys) ++ [p]) = ((p :: q :: t') ++ [p]).reverse := by
            rw [List.reverse_append, hrev]
            simp
          have hkey : linCross (((y :: (ys ++ [p]))) ++ [y])
              = -linCross ((p :: q :: t') ++ [p]) := by
            rw [hB, hBlast]
            have : cross p y + linCross ((y :: ys) ++ [p])
                = -linCross ((p :: q :: t') ++ [p]) := by
              rw [← hA, hArev, linCross_reverse]
            rw [show y :: (ys ++ [p]) = (y :: ys) ++ [p] from by simp]
            rw [← this]
            ring
          rw [hrev, show (y :: ys) ++ [p] = y :: (ys ++ [p]) from by simp,
            areaOfPoints_closed y (ys ++ [p]), areaOfPoints_closed p (q :: t'), hkey]
          rw [show -linCross ((p :: q :: t') ++ [p]) * RADIUS * RADIUS / 2
              = -(linCross ((p :: q :: t') ++ [p]) * RADIUS * RADIUS / 2) from by ring,
            abs_neg]

/-- areaOfPoints is never negative. -/
theorem areaOfPoints_nonneg (l : List LatLng) : 0 ≤ areaOfPoints l := by
  cases l with
  | nil => exact le_refl 0
  | cons p t => exact abs_nonneg _

/-- Below the minimum ring size, areaOfPoints is zero. -/
theorem areaOfPoints_lt3 (l : List LatLng) (h : l.length < 3) : areaOfPoints l = 0 := by
  match l, h with
  | [], _ => rfl
  | [p], _ =>
      rw [show areaOfPoints [p] = |ringArea [p, p]| from rfl,
        show ringArea [p, p] = 0 from by simp [ringArea]]
      simp
  | [p, q], _ =>
      rw [areaOfPoints_closed p [q]]
      have h0 : linCross (([p, q] : List LatLng) ++ [p]) = cross p q + (cross q p + 0) := rfl
      have h1 : linCross (([p, q] : List LatLng) ++ [p]) = 0 := by
        rw [h0]; unfold cross; ring
      rw [show (p :: [q]) ++ [p] = ([p, q] : List LatLng) ++ [p] from rfl, h1]
      simp

/-- Characterization of finalizeMeasurement while a mode is active: a no-op
below the effective minimum, otherwise append-then-clear. -/
theorem finalizeMeasurement_eq (s : MState) (m : Mode) (hm : s.measureMode = some m) :
    finalizeMeasurement s
      = if (dedupeLastPair s.pointsRef).length < minPoints m then s
        else
          clearInProgressMeasurement
            { s with measureLayers :=
                s.measureLayers
                  ++ [Artifact.finalShape m (dedupeLastPair s.pointsRef)
                        (calcRaw m (dedupeLastPair s.pointsRef))
                        (formatValue s m (calcRaw m (dedupeLastPair s.pointsRef)))] } := by
  simp only [finalizeMeasurement, hm]
  cases m with
  | distance =>
      simp only [minPoints]
      by_cases h : (dedupeLastPair s.pointsRef).length < 2
      · rw [if_pos ⟨trivial, h⟩, if_pos h]
      · rw [if_neg (fun hc => h hc.2), if_neg (fun hc => Mode.noConfusion hc.1), if_neg h]
  | area =>
      simp only [minPoints]
      by_cases h : (dedupeLastPair s.pointsRef).length < 3
      · rw [if_neg (fun hc => Mode.noConfusion hc.1), if_pos ⟨trivial, h⟩, if_pos h]
      · rw [if_neg (fun hc => Mode.noConfusion hc.1), if_neg (fun hc => h hc.2), if_neg h]

/-- finalizeMeasurement never changes the active mode. -/
theorem finalizeMeasurement_measureMode (s : MState) :
    (finalizeMeasurement s).measureMode = s.measureMode := by
  cases h : s.measureMode with
  | none => simp only [finalizeMeasurement, h]
  | some m =>
      rw [finalizeMeasurement_eq s m h]
      split_ifs with hc
      · exact h
      · exact h

/-- handleMouseMove never changes the active mode. -/
theorem mouseMove_measureMode (m : Mode) (c : LatLng) (s : MState) :
    (mouseMove m c s).measureMode = s.measureMode := by
  cases ht : s.tooltip <;> cases m <;> by_cases hp : s.pointsRef = [] <;>
    simp [mouseMove, ht, hp]

/-- handleMouseMove never changes the captured points. -/
theorem mouseMove_pointsRef (m : Mode) (c : LatLng) (s : MState) :
    (mouseMove m c s).pointsRef = s.pointsRef := by
  cases ht : s.tooltip <;> cases m <;> by_cases hp : s.pointsRef = [] <;>
    simp [mouseMove, ht, hp]

/-- handleMouseMove never touches the measureLayersRef group. -/
theorem mouseMove_measureLayers (m : Mode) (c : LatLng) (s : MState) :
    (mouseMove m c s).measureLayers = s.measureLayers := by
  cases ht : s.tooltip <;> cases m <;> by_cases hp : s.pointsRef = [] <;>
    simp [mouseMove, ht, hp]

/-- Claim C7: distance(points) equals the sum of the haversine great-circle
lengths (sphere of Earth's mean radius, meters) of each consecutive segment
from point i to point i+1; for fewer than 2 points it returns 0; and it is
symmetric under reversal of the point sequence. -/
theorem claim_C7 :
    (∀ ps : List LatLng,
      turfLength ps = (List.zipWith haversineMeters ps ps.tail).sum) ∧
    (∀ ps : List LatLng, ps.length < 2 → turfLength ps = 0) ∧
    (∀ ps : List LatLng, turfLength ps.reverse = turfLength ps) := by
  refine ⟨?_, ?_, turfLength_reverse⟩
  · intro ps
    induction ps with
    | nil => rfl
    | cons a t ih =>
        cases t with
        | nil => rfl
        | cons b t' =>
            rw [show turfLength (a :: b :: t')
                = haversineMeters a b + turfLength (b :: t') from rfl, ih]
            rfl
  · intro ps h
    match ps, h with
    | [], _ => rfl
    | [p], _ => rfl

/-- Witness for C7 at concrete inputs: a single point has length 0 and a
concrete two-point line is reversal-symmetric. -/
theorem claim_C7_witness :
    turfLength [(⟨13, 80⟩ : LatLng)]
      = (List.zipWith haversineMeters [(⟨13, 80⟩ : LatLng)] [(⟨13, 80⟩ : LatLng)].tail).sum ∧
    ([(⟨13, 80⟩ : LatLng)].length < 2 ∧ turfLength [(⟨13, 80⟩ : LatLng)] = 0) ∧
    turfLength ([(⟨13, 80⟩ : LatLng), ⟨14, 81⟩]).reverse
      = turfLength [(⟨13, 80⟩ : LatLng), ⟨14, 81⟩] :=
  ⟨claim_C7.1 _, ⟨by decide, claim_C7.2.1 _ (by decide)⟩, claim_C7.2.2 _⟩

/-- Claim C8: area(points) implicitly closes the open ring from the last
point back to the first before evaluating the geodesic ring formula; the
result is 0 for fewer than 3 points, never negative, and invariant both
under cyclic rotation of the point list and under reversal of the winding
order. -/
theorem claim_C8 :
    (∀ (p : LatLng) (t : List LatLng),
      areaOfPoints (p :: t) = |ringArea ((p :: t) ++ [p])|) ∧
    (∀ ps : List LatLng, ps.length < 3 → areaOfPoints ps = 0) ∧
    (∀ ps : List LatLng, 0 ≤ areaOfPoints ps) ∧
    (∀ (ps : List LatLng) (n : ℕ), areaOfPoints (ps.rotate n) = areaOfPoints ps) ∧
    (∀ ps : List LatLng, areaOfPoints ps.reverse = areaOfPoints ps) :=
  ⟨fun _ _ => rfl, areaOfPoints_lt3, areaOfPoints_nonneg, areaOfPoints_rotate,
    areaOfPoints_reverse⟩

/-- Witness for C8 at concrete inputs: the closure shape, the two-point
degenerate ring, non-negativity, a rotation and a reversal of a concrete
triangle. -/
theorem claim_C8_witness :
    areaOfPoints [(⟨0, 0⟩ : LatLng), ⟨0, 1⟩, ⟨1, 1⟩]
      = |ringArea [(⟨0, 0⟩ : LatLng), ⟨0, 1⟩, ⟨1, 1⟩, ⟨0, 0⟩]| ∧
    (([(⟨0, 0⟩ : LatLng), ⟨0, 1⟩].length < 3) ∧ areaOfPoints [(⟨0, 0⟩ : LatLng), ⟨0, 1⟩] = 0) ∧
    0 ≤ areaOfPoints [(⟨0, 0⟩ : LatLng), ⟨0, 1⟩, ⟨1, 1⟩] ∧
    areaOfPoints (([(⟨0, 0⟩ : LatLng), ⟨0, 1⟩, ⟨1, 1⟩]).rotate 1)
      = areaOfPoints [(⟨0, 0⟩ : LatLng), ⟨0, 1⟩, ⟨1, 1⟩] ∧
    areaOfPoints (([(⟨0, 0⟩ : LatLng), ⟨0, 1⟩, ⟨1, 1⟩]).reverse)
      = areaOfPoints [(⟨0, 0⟩ : LatLng), ⟨0, 1⟩, ⟨1, 1⟩] :=
  ⟨claim_C8.1 ⟨0, 0⟩ [⟨0, 1⟩, ⟨1, 1⟩], ⟨by decide, claim_C8.2.1 _ (by decide)⟩,
    claim_C8.2.2.1 _, claim_C8.2.2.2.1 _ 1, claim_C8.2.2.2.2 _⟩

/-- Claim C1: for a finalize() call in Collecting (an active mode), the
effective point list is the captured list with a coordinate-equal trailing
duplicate dropped; below the mode minimum (2 for Distance, 3 for Area) the
call is a strict no-op (state unchanged, no finalized measurement);
otherwise the raw value is computed by the geometry calculator, one new
finalized measurement is appended to the layer group, and the captured
points are reset to empty while the mode stays active. -/
theorem claim_C1 (s : MState) (m : Mode) (hm : s.measureMode = some m) :
    ((dedupeLastPair s.pointsRef).length < minPoints m → finalizeMeasurement s = s) ∧
    (minPoints m ≤ (dedupeLastPair s.pointsRef).length →
      (finalizeMeasurement s).pointsRef = [] ∧
      (finalizeMeasurement s).measureMode = some m ∧
      (finalizeMeasurement s).measureLayers
        = s.measureLayers
            ++ [Artifact.finalShape m (dedupeLastPair s.pointsRef)
                  (calcRaw m (dedupeLastPair s.pointsRef))
                  (formatValue s m (calcRaw m (dedupeLastPair s.pointsRef)))]) := by
  constructor
  · intro h
    rw [finalizeMeasurement_eq s m hm, if_pos h]
  · intro h
    rw [finalizeMeasurement_eq s m hm, if_neg (not_lt.mpr h)]
    exact ⟨rfl, hm, rfl⟩

/-- Witness for C1: Distance mode with one captured point is below the
minimum (the no-op branch applies), shown at the concrete state c1State. -/
theorem claim_C1_witness :
    c1State.measureMode = some Mode.distance ∧
    (dedupeLastPair c1State.pointsRef).length < minPoints Mode.distance ∧
    finalizeMeasurement c1State = c1State :=
  ⟨rfl, by decide, (claim_C1 c1State Mode.distance rfl).1 (by decide)⟩

/-- Claim C5: cancelInProgress (clearInProgressMeasurement) is idempotent,
total on every session state (safe with zero captured points), clears the
captured points and the cursor preview, and neither finalizes, deactivates,
nor touches previously finalized measurements. -/
theorem claim_C5 : ∀ s : MState,
    clearInProgressMeasurement (clearInProgressMeasurement s) = clearInProgressMeasurement s ∧
    (clearInProgressMeasurement s).pointsRef = [] ∧
    (clearInProgressMeasurement s).tempLayer = none ∧
    (clearInProgressMeasurement s).measureLayers = s.measureLayers ∧
    (clearInProgressMeasurement s).measureMode = s.measureMode := by
  intro s
  obtain ⟨pa, mm, pts, ml, tl, tt, uo, du, au⟩ := s
  refine ⟨?_, rfl, rfl, rfl, rfl⟩
  cases tt <;> cases mm <;> rfl

/-- Claim C10: the same-mode toggle button compares the raw captured count
with the mode minimum, before finalize's dedupe; when the raw count meets
the minimum but the deduped count does not (for example two coordinate-equal
points in Distance mode), the button invokes finalize() and that call
produces no finalized measurement and leaves the state unchanged. -/
theorem claim_C10 (s : MState) (m : Mode)
    (hm : s.measureMode = some m)
    (hmin : minPoints m ≤ s.pointsRef.length)
    (hded : (dedupeLastPair s.pointsRef).length < minPoints m) :
    handleMeasureButtonClick m s = finalizeMeasurement s ∧ finalizeMeasurement s = s := by
  have h2 : finalizeMeasurement s = s := by
    rw [finalizeMeasurement_eq s m hm, if_pos hded]
  refine ⟨?_, h2⟩
  unfold handleMeasureButtonClick
  rw [if_pos hm, if_pos hmin]

/-- Witness for C10: Distance mode with exactly two coordinate-equal
captured points, at the concrete state c10State. -/
theorem claim_C10_witness :
    c10State.measureMode = some Mode.distance ∧
    minPoints Mode.distance ≤ c10State.pointsRef.length ∧
    (dedupeLastPair c10State.pointsRef).length < minPoints Mode.distance ∧
    (handleMeasureButtonClick Mode.distance c10State = finalizeMeasurement c10State ∧
      finalizeMeasurement c10State = c10State) :=
  have hd : (dedupeLastPair c10State.pointsRef).length < minPoints Mode.distance := by
    simp [c10State, initState, dedupeLastPair, latLngEquals, minPoints]
  ⟨rfl, by decide, hd, claim_C10 c10State Mode.distance rfl (by decide) hd⟩

/-- Counterexample to claim C2 as stated: activating Area mode while
Distance mode holds one finalized measurement empties the measureLayersRef
group — startMeasure begins with clearAllMeasurements, so switching modes
does destroy previously finalized measurements. -/
theorem claim_C2_cex :
    c2State.measureMode = some Mode.distance ∧
    c2State.measureLayers ≠ [] ∧
    (startMeasure Mode.area c2State).measureLayers = [] := by
  refine ⟨rfl, ?_, rfl⟩
  simp [c2State, initState]

/-- Claim C2 (amended): activate(mode) while a different mode is active
discards the in-progress points without creating a finalized measurement,
but it also removes every previously finalized measurement — startMeasure
performs a full clear-all, so finalized measurements are destroyed by a
mode switch as well as by the explicit clear-all. -/
theorem claim_C2 (s : MState) (m m' : Mode)
    (_hm : s.measureMode = some m') (_hne : m' ≠ m) :
    (startMeasure m s).measureMode = some m ∧
    (startMeasure m s).pointsRef = [] ∧
    (startMeasure m s).tempLayer = none ∧
    (startMeasure m s).measureLayers = [] :=
  ⟨rfl, rfl, rfl, rfl⟩

/-- Witness for C2 at the concrete state c2State (Distance active, one
finalized measurement, switching to Area). -/
theorem claim_C2_witness :
    c2State.measureMode = some Mode.distance ∧
    Mode.distance ≠ Mode.area ∧
    ((startMeasure Mode.area c2State).measureMode = some Mode.area ∧
      (startMeasure Mode.area c2State).pointsRef = [] ∧
      (startMeasure Mode.area c2State).tempLayer = none ∧
      (startMeasure Mode.area c2State).measureLayers = []) :=
  ⟨rfl, by decide, claim_C2 c2State Mode.area Mode.distance rfl (by decide)⟩

/-- Counterexample to claim C3 as stated: in c3State the finalized label
matches the selected unit m²; after switching the area unit to hectares the
stored label is unchanged (the tooltip text was fixed at finalize time), so
the finalized label is not re-rendered in the new unit. -/
theorem claim_C3_cex :
    finalLabelConsistent c3State ∧
    ¬ finalLabelConsistent (setAreaUnitH AreaUnit.ha c3State) := by
  constructor
  · intro m ps raw lbl hmem
    simp only [c3State, initState] at hmem
    rcases List.mem_singleton.mp hmem with h
    injection h with h1 h2 h3 h4
    subst h1
    subst h3
    subst h4
    show Label.mk 100 0 "m²" = formatValue c3State Mode.area 100
    show Label.mk 100 0 "m²" = formatArea AreaUnit.sqm 100
    unfold formatArea
    simp [AREA_UNITS, areaUnitSymbol]
  · intro hcon
    have hmem : Artifact.finalShape Mode.area [⟨0, 0⟩, ⟨0, 1⟩, ⟨1, 1⟩] 100 ⟨100, 0, "m²"⟩
        ∈ (setAreaUnitH AreaUnit.ha c3State).measureLayers := by
      show _ ∈ c3State.measureLayers
      simp [c3State, initState]
    have h := hcon Mode.area [⟨0, 0⟩, ⟨0, 1⟩, ⟨1, 1⟩] 100 ⟨100, 0, "m²"⟩ hmem
    have h2 := congrArg Label.unitSym h
    have h3 : "m²" = "ha" := by
      simp only [formatValue, formatArea, areaUnitSymbol, setAreaUnitH] at h2
      exact h2
    exact absurd h3 (by decide)

/-- Claim C3 (amended): a finalized measurement's label is computed at
finalize time from its raw value and the unit selected at that moment
(displayValue = rawValue × factor, the hectare factor being 0.0001 of the
m² factor); changing the unit selection afterwards changes neither the
stored finalized artifacts (so never the stored rawValue, and no geometry
is recomputed) nor their already-rendered labels — existing labels are not
re-formatted in the new unit. -/
theorem claim_C3 :
    (∀ (s : MState) (u : AreaUnit), (setAreaUnitH u s).measureLayers = s.measureLayers) ∧
    (∀ (s : MState) (u : DistanceUnit),
      (setDistanceUnitH u s).measureLayers = s.measureLayers) ∧
    (∀ v : ℝ,
      (formatArea AreaUnit.ha v).value = (1 / 10000 : ℝ) * (formatArea AreaUnit.sqm v).value) ∧
    (∀ (s : MState) (m : Mode), s.measureMode = some m →
      minPoints m ≤ (dedupeLastPair s.pointsRef).length →
      (finalizeMeasurement s).measureLayers
        = s.measureLayers
            ++ [Artifact.finalShape m (dedupeLastPair s.pointsRef)
                  (calcRaw m (dedupeLastPair s.pointsRef))
                  (formatValue s m (calcRaw m (dedupeLastPair s.pointsRef)))]) := by
  refine ⟨fun _ _ => rfl, fun _ _ => rfl, ?_, ?_⟩
  · intro v
    unfold formatArea
    simp [AREA_UNITS]
    ring
  · intro s m hm h
    rw [finalizeMeasurement_eq s m hm, if_neg (not_lt.mpr h)]
    rfl

/-- Witness for C3: the frame conditions applied at the concrete state
c3FinState and a concrete finalize in Area mode with three points. -/
theorem claim_C3_witness :
    (setAreaUnitH AreaUnit.ha c3FinState).measureLayers = c3FinState.measureLayers ∧
    (setDistanceUnitH DistanceUnit.km c3FinState).measureLayers = c3FinState.measureLayers ∧
    (formatArea AreaUnit.ha 100).value = (1 / 10000 : ℝ) * (formatArea AreaUnit.sqm 100).value ∧
    (c3FinState.measureMode = some Mode.area ∧
      minPoints Mode.area ≤ (dedupeLastPair c3FinState.pointsRef).length ∧
      (finalizeMeasurement c3FinState).measureLayers
        = c3FinState.measureLayers
            ++ [Artifact.finalShape Mode.area (dedupeLastPair c3FinState.pointsRef)
                  (calcRaw Mode.area (dedupeLastPair c3FinState.pointsRef))
                  (formatValue c3FinState Mode.area
                    (calcRaw Mode.area (dedupeLastPair c3FinState.pointsRef)))]) :=
  have hmin : minPoints Mode.area ≤ (dedupeLastPair c3FinState.pointsRef).length := by
    norm_num [c3FinState, initState, dedupeLastPair, latLngEquals, minPoints]
  ⟨claim_C3.1 c3FinState AreaUnit.ha, claim_C3.2.1 c3FinState DistanceUnit.km,
    claim_C3.2.2.1 100, rfl, hmin, claim_C3.2.2.2 c3FinState Mode.area rfl hmin⟩

/-- Claim C4 (code bug exhibit): after opening the panel, activating
Distance mode and clicking (0,0) and (0,1), the finalizeMeasurement handler
does add a finalized solid shape to the overlay group — but the full
double-click step (handler plus the points-rendering reconciliation effect
that fires on setPoints([])) leaves the overlay group empty: the finalized
shape is removed by a finalize step, not by cancelInProgress, clearAll or
deactivate. -/
theorem claim_C4 :
    runUI c4Trace initState = c4Mid ∧
    (finalizeMeasurement c4Mid).measureLayers.any isFinalShape = true ∧
    (stepUI UIEvent.dblclick c4Mid).measureLayers = [] := by
  have hrun : runUI c4Trace initState = c4Mid := by
    simp [c4Trace, runUI, stepUI, initState, modeSwitchCascade, startMeasure,
      clearAllMeasurements, clearInProgressMeasurement, renderEffect,
      toggleMeasurePanel, c4Mid]
  have hd : dedupeLastPair c4Mid.pointsRef = [⟨0, 0⟩, ⟨0, 1⟩] := by
    norm_num [c4Mid, dedupeLastPair, latLngEquals]
  have hfin : finalizeMeasurement c4Mid
      = clearInProgressMeasurement
          { c4Mid with measureLayers :=
              c4Mid.measureLayers
                ++ [Artifact.finalShape Mode.distance (dedupeLastPair c4Mid.pointsRef)
                      (calcRaw Mode.distance (dedupeLastPair c4Mid.pointsRef))
                      (formatValue c4Mid Mode.distance
                        (calcRaw Mode.distance (dedupeLastPair c4Mid.pointsRef)))] } := by
    rw [finalizeMeasurement_eq c4Mid Mode.distance rfl, if_neg (by rw [hd]; norm_num [minPoints])]
  have hfires : finalizeFires Mode.distance c4Mid = true := by
    rw [finalizeFires]
    rw [hd]
    rfl
  refine ⟨hrun, ?_, ?_⟩
  · rw [hfin]
    show (c4Mid.measureLayers ++ [_]).any isFinalShape = true
    simp [c4Mid, isFinalShape]
  · show (stepUI UIEvent.dblclick c4Mid).measureLayers = []
    have hstep : stepUI UIEvent.dblclick c4Mid = renderEffect (finalizeMeasurement c4Mid) := by
      rw [show stepUI UIEvent.dblclick c4Mid
          = (if finalizeFires Mode.distance c4Mid = true then
              renderEffect (finalizeMeasurement c4Mid)
            else finalizeMeasurement c4Mid) from rfl, hfires]
      exact if_pos rfl
    rw [hstep, hfin]
    rfl

/-- Every event step preserves the invariant that the captured-point list is
empty whenever no mode is active. -/
theorem stepUI_good (e : UIEvent) (s : MState)
    (ih : s.measureMode = none → s.pointsRef = []) :
    (stepUI e s).measureMode = none → (stepUI e s).pointsRef = [] := by
  cases e with
  | click p =>
      cases h : s.measureMode with
      | none => simp only [stepUI, h]; exact fun _ => ih h
      | some m =>
          simp only [stepUI, h]
          intro hN
          exact Option.noConfusion (show (some m : Option Mode) = none from hN)
  | dblclick =>
      cases h : s.measureMode with
      | none => simp only [stepUI, h]; exact fun _ => ih h
      | some m =>
          simp only [stepUI, h]
          split_ifs with hf <;>
            (intro hN;
             have hN' : (finalizeMeasurement s).measureMode = none := hN;
             rw [finalizeMeasurement_measureMode, h] at hN';
             exact Option.noConfusion hN')
  | rightclick =>
      cases h : s.measureMode with
      | none => simp only [stepUI, h]; exact fun _ => ih h
      | some m => simp only [stepUI, h]; intro _; rfl
  | escape =>
      cases h : s.measureMode with
      | none => simp only [stepUI, h]; exact fun _ => ih h
      | some m => simp only [stepUI, h]; intro _; rfl
  | mousemove p =>
      cases h : s.measureMode with
      | none => simp only [stepUI, h]; exact fun _ => ih h
      | some m =>
          simp only [stepUI, h]
          intro hN
          have hN' : s.measureMode = none := by
            rw [← mouseMove_measureMode m p s]; exact hN
          rw [h] at hN'
          exact Option.noConfusion hN'
  | measureButton m =>
      by_cases hp : s.panelOpen = true
      · simp only [stepUI, hp, if_true]
        by_cases hsame : s.measureMode = some m
        · rw [if_pos hsame]
          by_cases hmin : minPoints m ≤ s.pointsRef.length
          · rw [if_pos hmin]
            split_ifs with hf <;>
              (intro hN;
               have hN' : (finalizeMeasurement s).measureMode = none := hN;
               rw [finalizeMeasurement_measureMode, hsame] at hN';
               exact Option.noConfusion hN')
          · rw [if_neg hmin]; exact ih
        · rw [if_neg hsame]
          intro hN
          exact Option.noConfusion (show (some m : Option Mode) = none from hN)
      · simp only [stepUI, hp]
        rw [if_neg (by simp [hp])]
        exact ih
  | clearAllButton =>
      by_cases hp : s.panelOpen = true
      · simp only [stepUI, hp, if_true]; intro _; rfl
      · simp only [stepUI, hp]
        rw [if_neg (by simp [hp])]
        exact ih
  | togglePanel =>
      by_cases hp : s.panelOpen = true
      · simp only [stepUI, hp, if_true]
        intro _
        show (toggleMeasurePanel s).pointsRef = []
        unfold toggleMeasurePanel
        rw [if_pos hp]
        rfl
      · simp only [stepUI, hp]
        rw [if_neg (by simp [hp])]
        exact ih
  | unitSelectorToggle =>
      simp only [stepUI]
      split_ifs with hc
      · exact fun hN => ih hN
      · exact fun hN => ih hN
  | clickOutsideSelector =>
      simp only [stepUI]
      exact fun hN => ih hN
  | selectDistanceUnit i =>
      simp only [stepUI]
      split_ifs with hc
      · cases hg : distanceUnitList.get? i with
        | none => simp only [hg]; exact fun hN => ih hN
        | some u =>
            simp only [hg]
            split_ifs with hu
            · exact fun hN => ih hN
            · intro _; rfl
      · exact fun hN => ih hN
  | selectAreaUnit i =>
      simp only [stepUI]
      split_ifs with hc
      · cases hg : areaUnitList.get? i with
        | none => simp only [hg]; exact fun hN => ih hN
        | some u =>
            simp only [hg]
            split_ifs with hu
            · exact fun hN => ih hN
            · intro _; rfl
      · exact fun hN => ih hN

/-- Claim C6: in every reachable session state the captured-point list is
empty whenever no mode is active; in particular a map click adds no point
while no mode is active (the click handler is not subscribed). -/
theorem claim_C6 :
    (∀ s : MState, Reachable s → s.measureMode = none → s.pointsRef = []) ∧
    (∀ (s : MState) (p : LatLng), s.measureMode = none → stepUI (.click p) s = s) := by
  constructor
  · intro s hr
    induction hr with
    | init => intro _; rfl
    | step e hr ih => exact stepUI_good e _ ih
  · intro s p h
    simp only [stepUI, h]

/-- Witness for C6 at the initial state: it is reachable, has no active
mode, and its point list is empty; a click there is a no-op. -/
theorem claim_C6_witness :
    Reachable initState ∧ initState.measureMode = none ∧ initState.pointsRef = [] ∧
    stepUI (UIEvent.click dfl) initState = initState :=
  ⟨Reachable.init, rfl, claim_C6.1 initState Reachable.init rfl,
    claim_C6.2 initState dfl rfl⟩

/-- Counterexample to claim C9 as stated: the raw setter accepts an unknown
symbol (the stored unit changes instead of staying unchanged), and the
registry lookup for that symbol is undefined, so the next format call would
fault rather than display — there is no defensive rejection in the code. -/
theorem claim_C9_cex :
    setUnitRaw "parsec" "m" ≠ "m" ∧
    lookupUnitCfg DISTANCE_UNITS_TABLE "parsec" = none := by
  constructor
  · decide
  · rfl

/-- Claim C9 (amended): no validation exists on the setUnit path — the raw
setter stores whatever symbol it receives — but an unknown symbol can never
arrive through the UI: the unit-selector options are exactly the known
table symbols of each kind, and each of them resolves in the registry. -/
theorem claim_C9 :
    DISTANCE_UNITS_TABLE.map Prod.fst = ["m", "km", "ft", "mi"] ∧
    AREA_UNITS_TABLE.map Prod.fst = ["m²", "km²", "ha", "ft²", "acres"] ∧
    (∀ sym, sym ∈ DISTANCE_UNITS_TABLE.map Prod.fst →
      (lookupUnitCfg DISTANCE_UNITS_TABLE sym).isSome = true) ∧
    (∀ sym, sym ∈ AREA_UNITS_TABLE.map Prod.fst →
      (lookupUnitCfg AREA_UNITS_TABLE sym).isSome = true) ∧
    (∀ sym cur : String, setUnitRaw sym cur = sym) := by
  refine ⟨rfl, rfl, ?_, ?_, fun _ _ => rfl⟩
  · intro sym h
    simp only [DISTANCE_UNITS_TABLE, distanceUnitList, distanceUnitSymbol,
      List.map_cons, List.map_nil, List.mem_cons, List.not_mem_nil, or_false] at h
    rcases h with rfl | rfl | rfl | rfl <;> rfl
  · intro sym h
    simp only [AREA_UNITS_TABLE, areaUnitList, areaUnitSymbol,
      List.map_cons, List.map_nil, List.mem_cons, List.not_mem_nil, or_false] at h
    rcases h with rfl | rfl | rfl | rfl | rfl <;> rfl

/-- Witness for C9 on concrete symbols of each table. -/
theorem claim_C9_witness :
    ("m" ∈ DISTANCE_UNITS_TABLE.map Prod.fst ∧
      (lookupUnitCfg DISTANCE_UNITS_TABLE "m").isSome = true) ∧
    ("ha" ∈ AREA_UNITS_TABLE.map Prod.fst ∧
      (lookupUnitCfg AREA_UNITS_TABLE "ha").isSome = true) :=
  ⟨⟨by decide, claim_C9.2.2.1 "m" (by decide)⟩,
    ⟨by decide, claim_C9.2.2.2.1 "ha" (by decide)⟩⟩
